import Mathlib

/-!
Verification of the core scanning subsystems of the `zcf-init-project`
repository: the file filter / ignore-rule engine (`src/filters/file-filter.ts`),
the project-type detector registry (`src/detectors/*`), and the phased scan
orchestrator (`src/core/scanner.ts`, `src/scanners/quick-scanner.ts`).

The TypeScript source is embedded shallowly:

* glob matching (`minimatch`) is abstracted as a boolean `Matcher` parameter
  `m : String → String → Bool` taking the root-relative path and the pattern;
  every property proved here holds for every matcher, and witnesses
  instantiate it with concrete executable matchers;
* the per-path `fs.stat` call in `shouldInclude` is abstracted by a `statOk`
  flag (the source returns `false` from the `catch` branch when the stat
  fails, before any rule is consulted);
* the result cache (`ignoreCache`) is not modelled: the source invalidates it
  wholesale whenever rules change, so a cached answer always equals the
  recomputed one and the cache is observationally transparent;
* JavaScript `Array.prototype.sort` with comparator
  `(a, b) => b.priority - a.priority` is required by ECMAScript to be stable;
  it is modelled by a stable descending insertion sort (`sortByDesc`), which
  produces the same list.
-/

/-- JavaScript `Array.prototype.sort((a, b) => b.key - a.key)` is a stable
descending sort; `insertByDesc` inserts an element after every earlier element
whose key is at least as large, which is exactly the stable placement. -/
def insertByDesc (key : α → Nat) (x : α) : List α → List α
  | [] => [x]
  | y :: ys => if key y ≤ key x then x :: y :: ys else y :: insertByDesc key x ys

/-- Stable descending insertion sort, the model of the priority sorts in
`FileFilterSystem.addFilters` / `addIgnoreRules` and of the confidence sort in
`DetectorManager.detectProjectType`. -/
def sortByDesc (key : α → Nat) : List α → List α
  | [] => []
  | x :: xs => insertByDesc key x (sortByDesc key xs)

theorem mem_insertByDesc (key : α → Nat) (x : α) (l : List α) (a : α) :
    a ∈ insertByDesc key x l ↔ a = x ∨ a ∈ l := by
  induction l with
  | nil => simp [insertByDesc]
  | cons y ys ih =>
      by_cases h : key y ≤ key x
      · simp [insertByDesc, h]
      · simp [insertByDesc, h, ih]
        tauto

theorem mem_sortByDesc (key : α → Nat) (l : List α) (a : α) :
    a ∈ sortByDesc key l ↔ a ∈ l := by
  induction l with
  | nil => simp [sortByDesc]
  | cons x xs ih => simp [sortByDesc, mem_insertByDesc, ih]

theorem any_congr_of_mem_iff {l₁ l₂ : List α} (p : α → Bool)
    (h : ∀ a, a ∈ l₁ ↔ a ∈ l₂) : l₁.any p = l₂.any p := by
  rw [Bool.eq_iff_iff, List.any_eq_true, List.any_eq_true]
  constructor
  · rintro ⟨a, ha, hpa⟩
    exact ⟨a, (h a).mp ha, hpa⟩
  · rintro ⟨a, ha, hpa⟩
    exact ⟨a, (h a).mpr ha, hpa⟩

/-! ## Data model of the filter engine (`src/types`, `src/filters/file-filter.ts`) -/

/-- `FileFilter` from `src/types`: `{name, pattern, action, priority}`.
The TypeScript `action` field is the string union `'include' | 'exclude'`,
modelled directly as a string; the `pattern` field may also be a `RegExp` in
the source, but matching is abstracted behind the `Matcher` parameter so only
the pattern text matters here. -/
structure FileFilter where
  name : String
  pattern : String
  action : String
  priority : Nat
deriving DecidableEq, Repr

/-- `IgnoreRule` from `src/types`: `{pattern, description, priority}`
(the optional `global` flag is never read by the filter engine). -/
structure IgnoreRule where
  pattern : String
  description : String
  priority : Nat
deriving DecidableEq, Repr

/-- Abstract glob / regex matcher standing for
`FileFilterSystem.matchPattern(path, pattern)` (minimatch with `dot: true`;
malformed patterns return `false`). Arguments: relative path, then pattern. -/
def Matcher : Type := String → String → Bool

/-- The mutable state of a `FileFilterSystem` instance: the three rule lists.
The `ignoreCache` map is omitted (see the module docstring). -/
structure FilterState where
  includeFilters : List FileFilter
  excludeFilters : List FileFilter
  ignoreRules : List IgnoreRule
deriving DecidableEq, Repr

/-- `initializeDefaultFilters`: the default include filters, verbatim. -/
def defaultIncludeFilters : List FileFilter :=
  [ { name := "Source files",
      pattern := "**/*.\x7bjs,ts,jsx,tsx,py,go,rs,java,cpp,c,h,hpp\x7d",
      action := "include", priority := 10 },
    { name := "Config files",
      pattern := "**/*.\x7bjson,yaml,yml,toml,xml,ini,conf,config\x7d",
      action := "include", priority := 9 },
    { name := "Documentation",
      pattern := "**/*.\x7bmd,txt,rst,adoc\x7d",
      action := "include", priority := 8 },
    { name := "Project files", pattern := "**/package.json",
      action := "include", priority := 10 },
    { name := "Project files", pattern := "**/go.mod",
      action := "include", priority := 10 },
    { name := "Project files", pattern := "**/pyproject.toml",
      action := "include", priority := 10 } ]

/-- `initializeDefaultFilters`: the default exclude filters, verbatim. -/
def defaultExcludeFilters : List FileFilter :=
  [ { name := "Binary files",
      pattern := "**/*.\x7bexe,dll,so,dylib,a,lib\x7d",
      action := "exclude", priority := 10 },
    { name := "Large media files",
      pattern := "**/*.\x7bmp4,avi,mov,wmv,flv,webm,mkv,mp3,wav,flac\x7d",
      action := "exclude", priority := 10 },
    { name := "Archive files",
      pattern := "**/*.\x7bzip,tar,gz,bz2,rar,7z\x7d",
      action := "exclude", priority := 9 },
    { name := "Font files",
      pattern := "**/*.\x7bttf,otf,woff,woff2,eot\x7d",
      action := "exclude", priority := 8 },
    { name := "Image files (large)",
      pattern := "**/*.\x7bpsd,tiff,bmp\x7d",
      action := "exclude", priority := 7 } ]

/-- `initializeDefaultIgnoreRules`: the default ignore rules, verbatim. -/
def defaultIgnoreRules : List IgnoreRule :=
  [ { pattern := ".git/**", description := "Git版本控制文件", priority := 10 },
    { pattern := ".gitignore", description := "Git忽略文件", priority := 10 },
    { pattern := ".gitmodules", description := "Git子模块配置", priority := 9 },
    { pattern := "node_modules/**", description := "Node.js依赖目录", priority := 10 },
    { pattern := "npm-debug.log*", description := "npm调试日志", priority := 8 },
    { pattern := "yarn-debug.log*", description := "yarn调试日志", priority := 8 },
    { pattern := "yarn-error.log*", description := "yarn错误日志", priority := 8 },
    { pattern := ".pnpm-debug.log*", description := "pnpm调试日志", priority := 8 },
    { pattern := "dist/**", description := "构建输出目录", priority := 9 },
    { pattern := "build/**", description := "构建输出目录", priority := 9 },
    { pattern := "out/**", description := "构建输出目录", priority := 9 },
    { pattern := ".next/**", description := "Next.js构建目录", priority := 9 },
    { pattern := ".nuxt/**", description := "Nuxt.js构建目录", priority := 9 },
    { pattern := ".cache/**", description := "缓存目录", priority := 8 },
    { pattern := "__pycache__/**", description := "Python字节码缓存", priority := 10 },
    { pattern := "*.py[cod]", description := "Python字节码文件", priority := 9 },
    { pattern := ".pytest_cache/**", description := "pytest缓存", priority := 8 },
    { pattern := ".mypy_cache/**", description := "mypy缓存", priority := 8 },
    { pattern := ".tox/**", description := "tox测试环境", priority := 8 },
    { pattern := ".venv/**", description := "Python虚拟环境", priority := 9 },
    { pattern := "venv/**", description := "Python虚拟环境", priority := 9 },
    { pattern := "env/**", description := "Python虚拟环境", priority := 9 },
    { pattern := "vendor/**", description := "Go依赖目录", priority := 9 },
    { pattern := ".vscode/**", description := "VS Code配置", priority := 7 },
    { pattern := ".idea/**", description := "IntelliJ IDEA配置", priority := 7 },
    { pattern := "*.swp", description := "Vim交换文件", priority := 7 },
    { pattern := "*.swo", description := "Vim交换文件", priority := 7 },
    { pattern := ".DS_Store", description := "macOS系统文件", priority := 7 },
    { pattern := "Thumbs.db", description := "Windows缩略图", priority := 7 },
    { pattern := ".DS_Store/**", description := "macOS系统文件", priority := 8 },
    { pattern := ".Spotlight-V100/**", description := "macOS Spotlight索引", priority := 6 },
    { pattern := ".Trashes/**", description := "macOS回收站", priority := 6 },
    { pattern := "*.tmp", description := "临时文件", priority := 6 },
    { pattern := "*.temp", description := "临时文件", priority := 6 },
    { pattern := "*.log", description := "日志文件", priority := 5 },
    { pattern := ".env.local", description := "本地环境变量", priority := 8 },
    { pattern := ".env.*.local", description := "本地环境变量", priority := 8 },
    { pattern := "coverage/**", description := "测试覆盖率报告", priority := 8 },
    { pattern := ".coverage", description := "Python测试覆盖率文件", priority := 8 },
    { pattern := "coverage.xml", description := "测试覆盖率报告", priority := 7 },
    { pattern := "package-lock.json", description := "npm锁定文件", priority := 5 },
    { pattern := "yarn.lock", description := "yarn锁定文件", priority := 5 },
    { pattern := "pnpm-lock.yaml", description := "pnpm锁定文件", priority := 5 },
    { pattern := "poetry.lock", description := "Poetry锁定文件", priority := 5 } ]

/-- State of a freshly constructed `FileFilterSystem` (no optional `config`):
the constructor pushes the default filters and ignore rules, unsorted. -/
def initialFilterState : FilterState :=
  { includeFilters := defaultIncludeFilters
    excludeFilters := defaultExcludeFilters
    ignoreRules := defaultIgnoreRules }

/-- `FileFilterSystem.addFilters`: split by `action === 'include'`, push, then
re-sort both lists by descending priority. -/
def addFilters (filters : List FileFilter) (st : FilterState) : FilterState :=
  { st with
    includeFilters :=
      sortByDesc (fun f => f.priority)
        (st.includeFilters ++ filters.filter (fun f => f.action == "include"))
    excludeFilters :=
      sortByDesc (fun f => f.priority)
        (st.excludeFilters ++ filters.filter (fun f => !(f.action == "include"))) }

/-- `FileFilterSystem.addIgnoreRules`: push, sort by descending priority
(and clear the — unmodelled — cache). -/
def addIgnoreRules (rules : List IgnoreRule) (st : FilterState) : FilterState :=
  { st with
    ignoreRules := sortByDesc (fun r => r.priority) (st.ignoreRules ++ rules) }

/-- `FileFilterSystem.shouldIgnore`: true iff some ignore rule's pattern
matches the relative path (the loop returns on the first match; existence is
order-independent). -/
def shouldIgnore (m : Matcher) (st : FilterState) (relativePath : String) : Bool :=
  st.ignoreRules.any fun rule => m relativePath rule.pattern

/-- `FileFilterSystem.applyFilters`: first-matching exclude filter excludes;
otherwise a first-matching include filter includes; otherwise the default is
inclusion (fail-open). -/
def applyFilters (m : Matcher) (st : FilterState) (relativePath : String) : Bool :=
  if st.excludeFilters.any (fun filter => m relativePath filter.pattern) then false
  else if st.includeFilters.any (fun filter => m relativePath filter.pattern) then true
  else true

/-- `FileFilterSystem.shouldInclude` on the root-relative path. `statOk` is
false when `fs.stat` on the path throws, in which case the source's `catch`
branch returns `false` before any rule is consulted. -/
def shouldInclude (m : Matcher) (st : FilterState) (statOk : Bool)
    (relativePath : String) : Bool :=
  if !statOk then false
  else if shouldIgnore m st relativePath then false
  else applyFilters m st relativePath

/-- `FileFilterSystem.filterFiles` over root-relative paths; every enumerated
path exists at enumeration time, so `statOk` is passed per path. -/
def filterFiles (m : Matcher) (st : FilterState) (statOk : String → Bool)
    (filePaths : List String) : List String :=
  filePaths.filter fun p => shouldInclude m st (statOk p) p

/-- `FileFilterSystem.reset`: clear everything and re-install the defaults. -/
def resetFilterState : FilterState := initialFilterState

/-- `FileFilterSystem.exportConfig`: one combined filter list
(includes then excludes) plus the ignore rules. -/
def exportConfig (st : FilterState) : List FileFilter × List IgnoreRule :=
  (st.includeFilters ++ st.excludeFilters, st.ignoreRules)

/-- `FileFilterSystem.importConfig`: `reset()` then `addFilters` then
`addIgnoreRules`. -/
def importConfig (cfg : List FileFilter × List IgnoreRule) : FilterState :=
  addIgnoreRules cfg.2 (addFilters cfg.1 resetFilterState)

/-- States of a `FileFilterSystem` reachable from the constructor by adding
filters and ignore rules (the constructor's optional `config` argument and
`loadGitignore` are special cases of these two steps). -/
inductive ReachableFilterState : FilterState → Prop
  | init : ReachableFilterState initialFilterState
  | addF (filters : List FileFilter) {st : FilterState} :
      ReachableFilterState st → ReachableFilterState (addFilters filters st)
  | addI (rules : List IgnoreRule) {st : FilterState} :
      ReachableFilterState st → ReachableFilterState (addIgnoreRules rules st)

/-! ## Filesystem model and the detector registry (`src/detectors/*`) -/

/-- A snapshot of a directory tree. A node is either a plain file or a
directory with an ordered entry list (the order models `fs.readdir` order). -/
inductive FsEntry where
  | file (name : String)
  | dir (name : String) (entries : List FsEntry)
deriving Repr

def FsEntry.name : FsEntry → String
  | .file n => n
  | .dir n _ => n

def FsEntry.entries : FsEntry → List FsEntry
  | .file _ => []
  | .dir _ es => es

def FsEntry.isDirectory : FsEntry → Bool
  | .file _ => false
  | .dir _ _ => true

/-- `String.startsWith`, computed structurally over the character list so
that concrete witnesses reduce inside the kernel. -/
def strStartsWith (s pre : String) : Bool := pre.data.isPrefixOf s.data

/-- `String.endsWith`, computed structurally over the character list. -/
def strEndsWith (s suffix : String) : Bool := suffix.data.isSuffixOf s.data

/-- Existence of a direct child entry with the given name
(`fs.access(join(path, name))` succeeds for files and directories alike). -/
def FsEntry.hasEntry (d : FsEntry) (n : String) : Bool :=
  d.entries.any fun e => e.name == n

def FsEntry.lookup (d : FsEntry) (n : String) : Option FsEntry :=
  d.entries.find? fun e => e.name == n

/-- `fs.access` on a relative path given by its components. -/
def fsAccess (d : FsEntry) : List String → Bool
  | [] => true
  | n :: rest =>
    match d.lookup n with
    | some e => fsAccess e rest
    | none => false

/-- Character-level splitting on `'/'` (structural version of
`String.splitOn "/"`). -/
def splitComponents : List Char → List (List Char)
  | [] => [[]]
  | c :: rest =>
    let r := splitComponents rest
    if c = '/' then [] :: r
    else
      match r with
      | [] => [[c]]
      | h :: t => (c :: h) :: t

/-- Split a source-level relative path such as `"cmd/main.go"` into
components (the behavior of `String.splitOn "/"`). -/
def splitPath (p : String) : List String :=
  (splitComponents p.data).map List.asString

/-- `ProjectType` from `src/types` (string enum in the source). -/
inductive ProjectType where
  | javascript | typescript | python | go | rust | java | csharp | php | ruby | unknown
deriving DecidableEq, Repr

/-- A registered detector: its `name`, its declared `patterns` and its
`detect` capability (`analyze` is not needed by any claim). -/
structure ModuleDetector where
  name : String
  patterns : List String
  detect : FsEntry → Bool

/-- `JavaScriptProjectDetector`: `detect` is presence of `package.json`. -/
def jsDetector : ModuleDetector :=
  { name := "JavaScript/TypeScript"
    patterns := ["package.json", "package-lock.json", "yarn.lock",
      "pnpm-lock.yaml", "tsconfig.json", "jsconfig.json", "tsconfig.base.json"]
    detect := fun path => path.hasEntry "package.json" }

/-- `PythonProjectDetector.detect`: one of five indicator files, else any
immediate `.py` file (`hasPythonFiles`). -/
def pyDetector : ModuleDetector :=
  { name := "Python"
    patterns := ["pyproject.toml", "setup.py", "requirements.txt",
      "requirements-dev.txt", "requirements.in", "Pipfile", "Pipfile.lock",
      "poetry.lock", "setup.cfg", "tox.ini", "pytest.ini", ".python-version"]
    detect := fun path =>
      ["pyproject.toml", "setup.py", "requirements.txt", "Pipfile",
        "setup.cfg"].any (fun ind => path.hasEntry ind)
      || path.entries.any (fun e => !e.isDirectory && strEndsWith e.name ".py") }

/-- `GoProjectDetector.detect`: `go.mod`, `main.go` or `cmd/main.go`, else any
immediate `.go` file (`hasGoFiles`). -/
def goDetector : ModuleDetector :=
  { name := "Go"
    patterns := ["go.mod", "go.sum", "main.go", "cmd/**/*.go", "pkg/**/*.go",
      "internal/**/*.go", "api/**/*.go", "vendor/**/*"]
    detect := fun path =>
      (["go.mod", "main.go", "cmd/main.go"].any
        fun ind => fsAccess path (splitPath ind))
      || path.entries.any (fun e => !e.isDirectory && strEndsWith e.name ".go") }

/-- `DetectorManager.initializeDetectors`: the registry in `Map` insertion
order — the JS/TS detector is registered under both the JavaScript and the
TypeScript keys, then Python, then Go. -/
def defaultRegistry : List (ProjectType × ModuleDetector) :=
  [(ProjectType.javascript, jsDetector), (ProjectType.typescript, jsDetector),
   (ProjectType.python, pyDetector), (ProjectType.go, goDetector)]

/-- The `switch (type)` block of `DetectorManager.calculateConfidence`: each
bonus tests whether the detector *declares* the marker pattern
(`detector.patterns.includes(...)`) — not whether the file is on disk. -/
def ecosystemBonus (type : ProjectType) (detector : ModuleDetector) : Nat :=
  match type with
  | .typescript => if detector.patterns.contains "tsconfig.json" then 20 else 0
  | .python => if detector.patterns.contains "pyproject.toml" then 15 else 0
  | .go => if detector.patterns.contains "go.mod" then 25 else 0
  | _ => 0

/-- `DetectorManager.calculateConfidence`. In the source,
`detector.patterns.filter(pattern => this.checkPatternMatch(path, pattern))`
uses the `async` method `checkPatternMatch` directly as an `Array.filter`
predicate; its value is a `Promise` object, which is always truthy, so every
declared pattern counts as a match irrespective of the filesystem:
`patternMatches` is `detector.patterns.length`. The `path` argument is
therefore never consulted. Final score capped at 100 by `Math.min`. -/
def calculateConfidence (_path : FsEntry) (type : ProjectType)
    (detector : ModuleDetector) : Nat :=
  min 100 (50 + detector.patterns.length * 10 + ecosystemBonus type detector)

/-- Modelled from the claim (C4) wording, for comparison with
`calculateConfidence`: base 50, plus 10 per detector-declared pattern actually
present on disk in the directory (`checkPatternMatch` joins the pattern text
to the path literally), plus an on-disk ecosystem bonus of 25 for `go.mod`,
20 for `tsconfig.json`, 15 for `pyproject.toml`, capped at 100. -/
def claimedConfidence (path : FsEntry) (type : ProjectType)
    (detector : ModuleDetector) : Nat :=
  let patternMatches :=
    (detector.patterns.filter fun pat => fsAccess path (splitPath pat)).length
  let bonus :=
    match type with
    | .typescript => if fsAccess path ["tsconfig.json"] then 20 else 0
    | .python => if fsAccess path ["pyproject.toml"] then 15 else 0
    | .go => if fsAccess path ["go.mod"] then 25 else 0
    | _ => 0
  min 100 (50 + patternMatches * 10 + bonus)

/-- One entry of the `detectionResults` array in
`DetectorManager.detectProjectType`. -/
structure DetectionResult where
  type : ProjectType
  confidence : Nat
deriving DecidableEq, Repr

/-- The `detectionResults` accumulation loop of
`DetectorManager.detectProjectType`: iterate the registry in insertion order,
keep each matching detector's type with its computed confidence. -/
def detectionResults (registry : List (ProjectType × ModuleDetector))
    (path : FsEntry) : List DetectionResult :=
  registry.filterMap fun td =>
    if td.2.detect path then
      some { type := td.1, confidence := calculateConfidence path td.1 td.2 }
    else none

/-- `DetectorManager.detectProjectType`: Unknown when nothing matches,
otherwise the type of the head of the stable descending confidence sort. -/
def detectProjectType (registry : List (ProjectType × ModuleDetector))
    (path : FsEntry) : ProjectType :=
  match sortByDesc (fun r => r.confidence) (detectionResults registry path) with
  | [] => ProjectType.unknown
  | r :: _ => r.type

/-- `DetectorManager.isModuleRoot`: detection yields non-Unknown. -/
def isModuleRoot (path : FsEntry) : Bool :=
  detectProjectType defaultRegistry path != ProjectType.unknown

/-- The entry loop of `DetectorManager.findModules`'s inner `scanDirectory`
as it actually executes. The inner function is started by the *plain* call
`scanDirectory(rootPath, 0)` — unlike `quickTraverseDirectory`, which uses
`.call(this)` — so `this` is `undefined` (module code is strict mode).
File entries and hidden directories never touch `this` and are passed over;
at the first non-hidden directory entry, `await this.isModuleRoot(fullPath)`
throws a `TypeError`, which the `catch` wrapping the whole loop swallows,
ending the loop. Nothing is ever pushed onto `modules` (the push sits after
the throwing call) and the recursive `scanDirectory(fullPath, depth + 1)`
on the next line is never reached. -/
def findModulesEntries : List FsEntry → List (List String)
  | [] => []
  | .file _ :: rest => findModulesEntries rest
  | .dir n _ :: rest =>
    if strStartsWith n "." then findModulesEntries rest
    else []

/-- `DetectorManager.findModules(rootPath, maxDepth)` (the source defaults
`maxDepth` to 3) as shipped: the root invocation's `depth > maxDepth` guard
cannot fire at depth `0`, and the unbound-`this` entry loop
(`findModulesEntries`) records nothing, so the result is `[]` for every
tree — `maxDepth` is never consulted. -/
def findModules (_maxDepth : Nat) (rootPath : FsEntry) : List (List String) :=
  findModulesEntries rootPath.entries

/-- Modelled from the spec: the entry loop of the *intended* `findModules`
walk (what the source's inner `scanDirectory` computes once `this` is
correctly bound, per spec §4.2 and the source's own comments), with the
callee's top-of-function depth guard inlined at the recursive call:
directory entries whose name does not start with `'.'` are either recorded
(when `isRoot`) or recursed into with `depth + 1`; recorded module paths
are returned relative to the scanned root as component lists. Kept for
comparison with the shipped `findModules`, which never reaches any of
this. -/
def scanEntriesIntended (isRoot : FsEntry → Bool) (maxDepth : Nat) :
    List FsEntry → Nat → List (List String)
  | [], _ => []
  | .file _ :: rest, depth => scanEntriesIntended isRoot maxDepth rest depth
  | .dir n sub :: rest, depth =>
    (if strStartsWith n "." then []
     else if isRoot (.dir n sub) then [[n]]
     else if depth + 1 > maxDepth then []
     else (scanEntriesIntended isRoot maxDepth sub (depth + 1)).map fun p => n :: p)
    ++ scanEntriesIntended isRoot maxDepth rest depth

/-- Modelled from the spec: the intended `scanDirectory(currentPath, depth)`
— return when `depth > maxDepth`, otherwise process the directory's
entries. -/
def scanDirectoryIntended (isRoot : FsEntry → Bool) (maxDepth : Nat) (d : FsEntry)
    (depth : Nat) : List (List String) :=
  if depth > maxDepth then []
  else scanEntriesIntended isRoot maxDepth d.entries depth

/-- Modelled from the spec: the intended `findModules(rootPath, maxDepth)`,
i.e. `scanDirectory(rootPath, 0)` with a working `isModuleRoot` binding. -/
def findModulesIntended (maxDepth : Nat) (rootPath : FsEntry) : List (List String) :=
  scanDirectoryIntended isModuleRoot maxDepth rootPath 0

/-- Sibling names are pairwise distinct (a real filesystem guarantee). -/
def distinctNames : List String → Bool
  | [] => true
  | n :: rest => !rest.contains n && distinctNames rest

mutual

/-- Well-formedness of a tree snapshot: at every directory, sibling entry
names are distinct, as `fs.readdir` guarantees. -/
def FsEntry.wfB : FsEntry → Bool
  | .file _ => true
  | .dir _ es => distinctNames (es.map FsEntry.name) && wfListB es

/-- Well-formedness of a list of sibling subtrees. -/
def wfListB : List FsEntry → Bool
  | [] => true
  | e :: rest => e.wfB && wfListB rest

end

/-! ## Scan orchestrator (`src/core/scanner.ts`) and quick scanner
(`src/scanners/quick-scanner.ts`) -/

/-- `ScanPhase` from `src/types` (string enum `quick`/`module`/`deep`). -/
inductive ScanPhase where
  | quick | module | deep
deriving DecidableEq, Repr

/-- A thrown `ScanError`: its `message` and machine-readable `code`
(the `path`/`phase` payload fields are not read by any claim). -/
structure ScanErrM where
  message : String
  code : String
deriving DecidableEq, Repr

/-- `PerformanceLimits` from `src/types` / `ScanConfigManager`. -/
structure PerformanceLimits where
  maxFiles : Nat
  maxFileSize : Nat
  maxDepth : Nat
  timeLimit : Nat
  memoryLimit : Nat
deriving DecidableEq, Repr

/-- `ScanConfigManager.DEFAULT_CONFIG.performanceLimits`. -/
def defaultPerformanceLimits : PerformanceLimits :=
  { maxFiles := 100000, maxFileSize := 10 * 1024 * 1024, maxDepth := 10,
    timeLimit := 300000, memoryLimit := 512 * 1024 * 1024 }

/-- `ScanStatistics` from `src/types`. Counts are naturals; `ignoredFiles`
is computed by JavaScript subtraction, so it is an integer here; `coverage`
is a JavaScript number computed by one division and one multiplication,
modelled exactly over `ℚ`. -/
structure ScanStatistics where
  totalFiles : Nat
  scannedFiles : Nat
  ignoredFiles : Int
  modulesFound : Nat
  scanDuration : Nat
  fileSize : Nat
  linesOfCode : Nat
  coverage : ℚ
deriving DecidableEq, Repr

/-- `Recommendation.type` (string union in the source). -/
inductive RecType where
  | scan_deeper | add_config | fix_structure | add_docs | optimize
deriving DecidableEq, Repr

/-- `Recommendation.priority` (string union in the source). -/
inductive RecPriority where
  | low | medium | high | critical
deriving DecidableEq, Repr

/-- The claim-relevant slice of `Recommendation`: `type`, `priority` and the
static `title`; the `description`/`action` strings (some built from dynamic
numbers via `toFixed`) are elided. -/
structure Recommendation where
  type : RecType
  priority : RecPriority
  title : String
deriving DecidableEq, Repr

/-- The slice of `ModuleInfo` consulted by the orchestrator and the claims:
`path` (as components relative to the scan root), `name`, `type`, `docs`.
`QuickScanner.quickAnalyzeModule` creates every other list field empty. -/
structure ModuleInfoM where
  path : List String
  name : String
  type : ProjectType
  docs : List String
deriving DecidableEq, Repr

/-- `ScanPhaseRecord`: wall-clock `startTime`/`endTime` are abstracted; their
difference is the `duration` supplied by the caller of `scanPhase`. -/
structure ScanPhaseRecord where
  phase : ScanPhase
  duration : Nat
  status : String
  error : Option String
deriving DecidableEq, Repr

/-- `ProjectScanResult` (the shared mutable accumulator), restricted to the
fields the claims read; `rootPath`, `globalFiles`, `ignoredFiles` lists are
never consulted. -/
structure ProjectScanResultM where
  projectType : ProjectType
  modules : List ModuleInfoM
  scanStatistics : ScanStatistics
  scanPhases : List ScanPhaseRecord
  recommendations : List Recommendation
deriving DecidableEq, Repr

/-- The all-zero statistics of `BaseScanner.initializeScanResult`. -/
def initialScanStatistics : ScanStatistics :=
  { totalFiles := 0, scannedFiles := 0, ignoredFiles := 0, modulesFound := 0,
    scanDuration := 0, fileSize := 0, linesOfCode := 0, coverage := 0 }

/-- `BaseScanner.initializeScanResult`. -/
def initializeScanResult : ProjectScanResultM :=
  { projectType := ProjectType.unknown
    modules := []
    scanStatistics := initialScanStatistics
    scanPhases := []
    recommendations := [] }

/-- `BaseScanner.shouldStopScan`: throws a classified `ScanError` when the
*accumulated statistics of the scan result* reach a limit, else returns
`false`. It reads `this.scanResult.scanStatistics` — not any traversal-local
counter. -/
def shouldStopScan (limits : PerformanceLimits) (stats : ScanStatistics) :
    Except ScanErrM Bool :=
  if limits.maxFiles ≤ stats.totalFiles then
    Except.error { message := "Maximum file limit reached: " ++ toString limits.maxFiles
                   code := "FILE_LIMIT_EXCEEDED" }
  else if limits.memoryLimit ≤ stats.fileSize then
    Except.error { message := "Memory limit reached: " ++ toString limits.memoryLimit ++ " bytes"
                   code := "MEMORY_LIMIT_EXCEEDED" }
  else Except.ok false

/-- Relative path string of a component path, with the normalized separator. -/
def joinPath (p : List String) : String := String.intercalate "/" p

/-- The entry loop of `quickTraverseDirectory`'s inner `traverseDirectory`
in the *top-level* invocation (`traverseDirectory.call(this, rootPath, 0)`),
where `currentPath === rootPath`, so the hidden-entry skip
(`entry.name.startsWith('.') && currentPath !== rootPath`) is disabled.
`traverseDirectory` is a plain inner function, so in the bare recursive call
`traverseDirectory(fullPath, depth + 1)` `this` is `undefined` (module code is
strict mode); unless the callee returns at once via its `depth > maxDepth`
guard, it throws a `TypeError` at `this.shouldStopScan()`, which the caller's
surrounding `try` catches, ending the caller's entry loop early with the
files accumulated so far. The per-entry `this.shouldStopScan()` of the
top-level invocation cannot fire because the statistics it reads are
unchanged since the same check passed at function entry. -/
def quickTopEntries (maxDepth : Nat) : List FsEntry → List (List String)
  | [] => []
  | .file n :: rest => [n] :: quickTopEntries maxDepth rest
  | .dir _ _ :: rest =>
    if maxDepth < 1 then quickTopEntries maxDepth rest
    else []

/-- `QuickScanner.quickTraverseDirectory`: `maxDepth` is
`performanceLimits?.maxDepth || 10` (`0` is falsy), the `depth > maxDepth`
guard of the root invocation never fires at depth `0`, and the root
invocation's function-entry `this.shouldStopScan()` — the only one outside
any `try` — may throw. Files are returned as root-relative component paths. -/
def quickTraverseDirectory (limits : PerformanceLimits)
    (stats : ScanStatistics) (root : FsEntry) :
    Except ScanErrM (List (List String)) :=
  let maxDepth := if limits.maxDepth == 0 then 10 else limits.maxDepth
  match shouldStopScan limits stats with
  | Except.error e => Except.error e
  | Except.ok _ => Except.ok (quickTopEntries maxDepth root.entries)

/-- `moduleIndicators` from `QuickScanner.quickIdentifyModules`. -/
def moduleIndicators : List String :=
  ["package.json", "go.mod", "pyproject.toml", "setup.py", "Cargo.toml",
   "pom.xml", "build.gradle", "csproj", "sln"]

/-- `commonModuleDirs` from `QuickScanner.quickIdentifyModules`. -/
def commonModuleDirs : List String :=
  ["packages", "libs", "modules", "apps", "services", "components"]

/-- `Set.add` preserving JavaScript `Set` insertion order. -/
def addUnique [BEq α] (x : α) (l : List α) : List α :=
  if l.contains x then l else l ++ [x]

/-- First half of `quickIdentifyModules`: the parent directory of every file
whose base name is a module indicator. -/
def modulePathsFromFiles (files : List (List String)) : List (List String) :=
  files.foldl (fun acc p =>
    match p.getLast? with
    | some fileName =>
      if moduleIndicators.contains fileName then addUnique p.dropLast acc else acc
    | none => acc) []

/-- `QuickScanner.quickIdentifyModules(files, rootPath)`. The
common-directory probe is modelled with its intended semantics — the source
passes an `await` inside a non-`async` arrow to `forEach` — adding each
non-hidden subdirectory (`findSubdirectories`) of an existing conventional
container directory that `isModuleRoot` accepts. -/
def quickIdentifyModules (files : List (List String)) (root : FsEntry) :
    List (List String) :=
  let fromFiles := modulePathsFromFiles files
  commonModuleDirs.foldl (fun acc mdir =>
    match root.lookup mdir with
    | some d =>
      (d.entries.filter fun e => e.isDirectory && !(strStartsWith e.name ".")).foldl
        (fun acc2 sub =>
          if isModuleRoot sub then addUnique [mdir, sub.name] acc2 else acc2) acc
    | none => acc) fromFiles

/-- `QuickScanner.extractModuleName`: last path component of the absolute
module path (`root.name` when the module root is the scan root itself),
defaulting to `"unknown"` when empty. -/
def extractModuleName (root : FsEntry) (p : List String) : String :=
  let last :=
    match p.getLast? with
    | some n => n
    | none => root.name
  if last == "" then "unknown" else last

def FsEntry.lookupPath (d : FsEntry) : List String → Option FsEntry
  | [] => some d
  | n :: rest =>
    match d.lookup n with
    | some e => e.lookupPath rest
    | none => none

/-- `QuickScanner.quickAnalyzeModules` + `quickAnalyzeModule`: per candidate
path, a `this.shouldStopScan()` throw, an Unknown detection, a missing
detector, or a failed re-`detect` all lead to the catch/`continue` of the
per-iteration `try` (or the explicit `continue`), skipping the candidate;
otherwise a minimal `ModuleInfo` with empty lists is produced. -/
def quickAnalyzeModules (limits : PerformanceLimits) (stats : ScanStatistics)
    (root : FsEntry) (modulePaths : List (List String)) : List ModuleInfoM :=
  modulePaths.foldl (fun acc p =>
    match shouldStopScan limits stats with
    | Except.error _ => acc
    | Except.ok _ =>
      match root.lookupPath p with
      | none => acc
      | some d =>
        let projectType := detectProjectType defaultRegistry d
        if projectType == ProjectType.unknown then acc
        else
          match defaultRegistry.find? (fun td => td.1 == projectType) with
          | none => acc
          | some td =>
            if td.2.detect d then
              acc ++ [{ path := p, name := extractModuleName root p,
                        type := projectType, docs := [] }]
            else acc) []

/-- `QuickScanner.updateStatistics`: counts from the enumeration and filter
results; `coverage` is (re)assigned only when `totalFiles > 0`. -/
def updateStatistics (stats : ScanStatistics)
    (allFiles filteredFiles : List String) (modules : List ModuleInfoM) :
    ScanStatistics :=
  let total := allFiles.length
  let scanned := filteredFiles.length
  { stats with
    totalFiles := total
    scannedFiles := scanned
    ignoredFiles := (total : Int) - (scanned : Int)
    modulesFound := modules.length
    coverage := if 0 < total then ((scanned : ℚ) / (total : ℚ)) * 100
      else stats.coverage }

/-- `QuickScanner.generateQuickRecommendations`: four independent checks, in
source order, each pushing one recommendation; the list then replaces
`scanResult.recommendations`. -/
def generateQuickRecommendations (stats : ScanStatistics)
    (projectType : ProjectType) : List Recommendation :=
  (if stats.modulesFound == 0 then
    [{ type := RecType.scan_deeper, priority := RecPriority.high,
       title := "未找到模块，建议进行深度扫描" }]
   else [])
  ++ (if stats.coverage < 30 then
    [{ type := RecType.scan_deeper, priority := RecPriority.medium,
       title := "扫描覆盖率较低" }]
   else [])
  ++ (if projectType == ProjectType.unknown then
    [{ type := RecType.add_config, priority := RecPriority.medium,
       title := "未识别的项目类型" }]
   else [])
  ++ (if 0 < stats.modulesFound then
    [{ type := RecType.scan_deeper, priority := RecPriority.low,
       title := "建议进行模块深度分析" }]
   else [])

/-- `BaseScanner.generateRecommendations` (the finalize-pass generator):
coverage below 50 → medium `scan_deeper`; some module without docs → high
`add_docs`; the list *replaces* `scanResult.recommendations`. -/
def generateRecommendations (result : ProjectScanResultM) :
    List Recommendation :=
  (if result.scanStatistics.coverage < 50 then
    [{ type := RecType.scan_deeper, priority := RecPriority.medium,
       title := "建议进行深度扫描" }]
   else [])
  ++ (if 0 < (result.modules.filter fun mo => mo.docs.isEmpty).length then
    [{ type := RecType.add_docs, priority := RecPriority.high,
       title := "建议为模块添加文档" }]
   else [])

/-- `BaseScanner.finalizeScan`: sum the pushed phase records' durations,
recompute coverage from the final counts when `totalFiles > 0`, then replace
the recommendations with `generateRecommendations` of the updated state. -/
def finalizeScan (result : ProjectScanResultM) : ProjectScanResultM :=
  let totalTime := (result.scanPhases.map fun rec => rec.duration).sum
  let stats0 : ScanStatistics :=
    { result.scanStatistics with scanDuration := totalTime }
  let stats : ScanStatistics :=
    if 0 < stats0.totalFiles then
      { stats0 with
        coverage := ((stats0.scannedFiles : ℚ) / (stats0.totalFiles : ℚ)) * 100 }
    else stats0
  let result' := { result with scanStatistics := stats }
  { result' with recommendations := generateRecommendations result' }

/-- A phase's concrete implementation (`performQuickScan` /
`performModuleScan` / `performDeepScan`): transforms the shared scan result
or throws. -/
def PhaseImpl : Type :=
  ScanPhase → ProjectScanResultM → Except ScanErrM ProjectScanResultM

/-- `BaseScanner.scanPhase`: dispatch to the implementation; on success the
record transitions to `completed`, on exception to `failed` carrying the
error message, and the exception is rethrown. The wall-clock
`endTime - startTime` is abstracted by the supplied duration `d`. -/
def scanPhase (impls : PhaseImpl) (d : Nat) (phase : ScanPhase)
    (result : ProjectScanResultM) :
    ScanPhaseRecord × Except ScanErrM ProjectScanResultM :=
  match impls phase result with
  | Except.ok result' =>
    ({ phase := phase, duration := d, status := "completed", error := none },
     Except.ok result')
  | Except.error e =>
    ({ phase := phase, duration := d, status := "failed", error := some e.message },
     Except.error e)

/-- The phase loop of `BaseScanner.scan`. On success the returned record is
pushed onto `scanResult.scanPhases`. On exception the loop's `catch` calls
`handleError`, which itself rethrows (a `ScanError` unchanged), so the
`break` after it is unreachable and the error propagates out of `scan`; the
failed phase's record is not pushed (the push sits after the `await`). -/
def scanLoop (impls : PhaseImpl) (dur : ScanPhase → Nat) :
    List ScanPhase → ProjectScanResultM → Except ScanErrM ProjectScanResultM
  | [], result => Except.ok result
  | phase :: rest, result =>
    match scanPhase impls (dur phase) phase result with
    | (record, Except.ok result') =>
      scanLoop impls dur rest
        { result' with scanPhases := result'.scanPhases ++ [record] }
    | (_, Except.error e) => Except.error e

/-- `BaseScanner.scan`: run the requested phases in order, then
`finalizeScan`. The finalize step is reached only when every phase
succeeded, because a phase failure escapes `scan` as a thrown error
(see `scanLoop`). -/
def scan (impls : PhaseImpl) (dur : ScanPhase → Nat) (phases : List ScanPhase)
    (result : ProjectScanResultM) : Except ScanErrM ProjectScanResultM :=
  match scanLoop impls dur phases result with
  | Except.ok r => Except.ok (finalizeScan r)
  | Except.error e => Except.error e

/-- The default phase sequence of `scan` when `options.phases` is absent. -/
def defaultPhases : List ScanPhase := [ScanPhase.quick, ScanPhase.module, ScanPhase.deep]

/-- The filter system as constructed by `QuickScanner`:
`new FileFilterSystem(scanConfig)` passes a `ScanConfig`, whose filter list
lives under the key `fileFilters` (the constructor reads `config.filters`,
which is `undefined`), so only `config.ignoreRules` — the default rule list
produced by `ScanConfigManager.createDefault()` — is added on top of the
constructor defaults (a harmless duplication). -/
def quickFilterState : FilterState :=
  addIgnoreRules defaultIgnoreRules initialFilterState

/-- The parsing loop of `FileFilterSystem.loadGitignore`: non-blank,
non-comment lines become priority-6 ignore rules. -/
def parseGitignore (content : String) : List IgnoreRule :=
  (content.splitOn "\n").foldl (fun acc line =>
    let trimmedLine := line.trim
    if trimmedLine == "" || strStartsWith trimmedLine "#" then acc
    else acc ++ [{ pattern := trimmedLine,
                   description := "From .gitignore: " ++ trimmedLine,
                   priority := 6 }]) []

/-- `FileFilterSystem.loadGitignore`: absent or unreadable file is a no-op;
otherwise the parsed rules are added. The file's content is supplied
explicitly because the tree model stores entry names only. -/
def loadGitignoreM (content : Option String) (st : FilterState) : FilterState :=
  match content with
  | none => st
  | some c => addIgnoreRules (parseGitignore c) st

/-- `QuickScanner.performQuickScan`: load `.gitignore`, enumerate, filter,
detect the overall type, identify and quick-analyze modules, update
statistics, generate quick recommendations. Any error thrown inside is
wrapped into a `QUICK_SCAN_FAILED` `ScanError`. -/
def performQuickScanM (limits : PerformanceLimits) (m : Matcher)
    (gitignoreContent : Option String) (root : FsEntry)
    (r : ProjectScanResultM) : Except ScanErrM ProjectScanResultM :=
  let fState := loadGitignoreM gitignoreContent quickFilterState
  match quickTraverseDirectory limits r.scanStatistics root with
  | Except.error e =>
    Except.error { message := "快速扫描失败: " ++ e.message, code := "QUICK_SCAN_FAILED" }
  | Except.ok allFiles =>
    let filteredFiles :=
      allFiles.filter fun p => shouldInclude m fState true (joinPath p)
    let projectType := detectProjectType defaultRegistry root
    let modulePaths := quickIdentifyModules filteredFiles root
    let moduleInfos := quickAnalyzeModules limits r.scanStatistics root modulePaths
    let stats := updateStatistics r.scanStatistics (allFiles.map joinPath)
      (filteredFiles.map joinPath) moduleInfos
    let recs := generateQuickRecommendations stats projectType
    Except.ok
      { r with
        projectType := projectType
        modules := moduleInfos
        scanStatistics := stats
        recommendations := recs }

/-- `QuickScanner`'s phase dispatch: quick runs `performQuickScan`; the
module and deep phases throw `UNSUPPORTED_PHASE`. -/
def quickImpls (limits : PerformanceLimits) (m : Matcher)
    (gitignoreContent : Option String) (root : FsEntry) : PhaseImpl :=
  fun phase result =>
    match phase with
    | ScanPhase.quick => performQuickScanM limits m gitignoreContent root result
    | ScanPhase.module =>
      Except.error { message := "QuickScanner 不支持模块扫描阶段", code := "UNSUPPORTED_PHASE" }
    | ScanPhase.deep =>
      Except.error { message := "QuickScanner 不支持深度扫描阶段", code := "UNSUPPORTED_PHASE" }

/-! ## Theorems: filter engine (C1, C2, C3, C10) -/

/-- C1: for every matcher, filter-system state, stat outcome and
root-relative path, if any ignore rule's pattern matches the path then
`shouldInclude` returns `false` — independently of the include and exclude
filter lists, which the conclusion never consults (the state `st` is
universally quantified, so the ignore decision dominates any filter
configuration). -/
theorem ignore_rules_dominate (m : Matcher) (st : FilterState) (statOk : Bool)
    (relativePath : String)
    (h : ∃ rule ∈ st.ignoreRules, m relativePath rule.pattern = true) :
    shouldInclude m st statOk relativePath = false := by
  obtain ⟨rule, hmem, hmatch⟩ := h
  have hany : shouldIgnore m st relativePath = true :=
    List.any_eq_true.mpr ⟨rule, hmem, hmatch⟩
  cases statOk <;> simp [shouldInclude, hany]

/-- Witness for C1: the default state ignores `node_modules/x.js` under a
matcher that recognizes the `node_modules/**` rule, even though include
filters would match it too. -/
theorem ignore_rules_dominate_witness :
    shouldInclude (fun _ pat => pat == "node_modules/**") initialFilterState
      true "node_modules/x.js" = false :=
  ignore_rules_dominate (fun _ pat => pat == "node_modules/**")
    initialFilterState true "node_modules/x.js" (by decide)

/-- C2 counterexample: a path on which no ignore rule, no exclude filter and
no include filter matches (the matcher rejects everything), but whose
`fs.stat` fails — the source's `catch` branch returns `false`, not the
claimed fail-open `true`. -/
theorem fail_open_counterexample :
    ((initialFilterState.ignoreRules.any
        fun rule => (fun _ _ => false : Matcher) "ghost.bin" rule.pattern) = false)
    ∧ ((initialFilterState.excludeFilters.any
        fun filter => (fun _ _ => false : Matcher) "ghost.bin" filter.pattern) = false)
    ∧ ((initialFilterState.includeFilters.any
        fun filter => (fun _ _ => false : Matcher) "ghost.bin" filter.pattern) = false)
    ∧ shouldInclude (fun _ _ => false) initialFilterState false "ghost.bin" = false := by
  decide

/-- C2 amended: for every path whose file information is obtainable
(`fs.stat` succeeds), if no ignore rule, no exclude filter and no include
filter matches its root-relative path, `shouldInclude` returns `true`
(fail-open default inclusion); when the stat fails the source returns
`false` instead. -/
theorem fail_open_default_inclusion (m : Matcher) (st : FilterState)
    (relativePath : String)
    (hig : ∀ rule ∈ st.ignoreRules, m relativePath rule.pattern = false)
    (hex : ∀ filter ∈ st.excludeFilters, m relativePath filter.pattern = false)
    (hin : ∀ filter ∈ st.includeFilters, m relativePath filter.pattern = false) :
    shouldInclude m st true relativePath = true := by
  have h1 : shouldIgnore m st relativePath = false :=
    List.any_eq_false.mpr fun x hx => by simp [hig x hx]
  have h2 : (st.excludeFilters.any fun filter => m relativePath filter.pattern) = false :=
    List.any_eq_false.mpr fun x hx => by simp [hex x hx]
  have h3 : (st.includeFilters.any fun filter => m relativePath filter.pattern) = false :=
    List.any_eq_false.mpr fun x hx => by simp [hin x hx]
  simp [shouldInclude, applyFilters, h1, h2, h3]

/-- Witness for the amended C2: a statable path nothing matches is included
by the default state. -/
theorem fail_open_default_inclusion_witness :
    shouldInclude (fun _ _ => false) initialFilterState true "ghost.bin" = true :=
  fail_open_default_inclusion (fun _ _ => false) initialFilterState "ghost.bin"
    (by decide) (by decide) (by decide)

/-- C3: for every enumerated file list, the statistics computed by
`updateStatistics` from it and its `filterFiles` subset (starting from any
statistics whose coverage is the initialized `0`, as in a fresh scan result)
satisfy `scannedFiles ≤ totalFiles` exactly, `scannedFiles` is the length of
the filtered subset, and coverage is exactly `100 × scannedFiles /
totalFiles` over `ℚ` when `totalFiles > 0` and `0` when `totalFiles = 0`. -/
theorem updateStatistics_coverage_exact (m : Matcher) (st : FilterState)
    (statOk : String → Bool) (allFiles filtered : List String)
    (modules : List ModuleInfoM) (stats stats' : ScanStatistics)
    (h0 : stats.coverage = 0)
    (hf : filtered = filterFiles m st statOk allFiles)
    (hs : stats' = updateStatistics stats allFiles filtered modules) :
    stats'.scannedFiles ≤ stats'.totalFiles
    ∧ stats'.scannedFiles = filtered.length
    ∧ (0 < stats'.totalFiles →
        stats'.coverage
          = 100 * (stats'.scannedFiles : ℚ) / (stats'.totalFiles : ℚ))
    ∧ (stats'.totalFiles = 0 → stats'.coverage = 0) := by
  subst hs
  have hlen : filtered.length ≤ allFiles.length := by
    rw [hf]
    exact List.length_filter_le _ _
  refine ⟨hlen, rfl, ?_, ?_⟩
  · intro hpos
    have hpos' : 0 < allFiles.length := hpos
    simp only [updateStatistics, hpos', if_pos]
    ring
  · intro hz
    have hz' : allFiles.length = 0 := hz
    simp [updateStatistics, hz', h0]

def c3Files : List String := ["a.js"]

def c3Filtered : List String :=
  filterFiles (fun _ _ => false) initialFilterState (fun _ => true) c3Files

def c3Stats : ScanStatistics :=
  updateStatistics initialScanStatistics c3Files c3Filtered []

/-- Witness for C3 at a concrete one-file enumeration. -/
theorem updateStatistics_coverage_exact_witness :
    c3Stats.scannedFiles ≤ c3Stats.totalFiles
    ∧ c3Stats.coverage
        = 100 * (c3Stats.scannedFiles : ℚ) / (c3Stats.totalFiles : ℚ) :=
  ⟨(updateStatistics_coverage_exact (fun _ _ => false) initialFilterState
      (fun _ => true) c3Files c3Filtered [] initialScanStatistics c3Stats
      rfl rfl rfl).1,
   (updateStatistics_coverage_exact (fun _ _ => false) initialFilterState
      (fun _ => true) c3Files c3Filtered [] initialScanStatistics c3Stats
      rfl rfl rfl).2.2.1 (by decide)⟩

/-- Every reachable filter-system state contains the default rules (adding
never removes), include filters all carry action `"include"`, and exclude
filters never do. -/
theorem reachable_invariants {st : FilterState} (h : ReachableFilterState st) :
    (∀ f ∈ defaultIncludeFilters, f ∈ st.includeFilters)
    ∧ (∀ f ∈ defaultExcludeFilters, f ∈ st.excludeFilters)
    ∧ (∀ r ∈ defaultIgnoreRules, r ∈ st.ignoreRules)
    ∧ (∀ f ∈ st.includeFilters, f.action = "include")
    ∧ (∀ f ∈ st.excludeFilters, ¬ f.action = "include") := by
  induction h with
  | init =>
      refine ⟨fun f hf => hf, fun f hf => hf, fun r hr => hr, ?_, ?_⟩ <;> decide
  | addF filters h ih =>
      obtain ⟨h1, h2, h3, h4, h5⟩ := ih
      refine ⟨?_, ?_, h3, ?_, ?_⟩
      · intro f hf
        simp only [addFilters, mem_sortByDesc, List.mem_append]
        exact Or.inl (h1 f hf)
      · intro f hf
        simp only [addFilters, mem_sortByDesc, List.mem_append]
        exact Or.inl (h2 f hf)
      · intro f hf
        simp only [addFilters, mem_sortByDesc, List.mem_append,
          List.mem_filter] at hf
        rcases hf with hf | ⟨_, hact⟩
        · exact h4 f hf
        · exact beq_iff_eq.mp hact
      · intro f hf
        simp only [addFilters, mem_sortByDesc, List.mem_append,
          List.mem_filter] at hf
        rcases hf with hf | ⟨_, hact⟩
        · exact h5 f hf
        · intro hcontra
          rw [hcontra] at hact
          simp at hact
  | addI rules h ih =>
      obtain ⟨h1, h2, h3, h4, h5⟩ := ih
      refine ⟨h1, h2, ?_, h4, h5⟩
      intro r hr
      simp only [addIgnoreRules, mem_sortByDesc, List.mem_append]
      exact Or.inl (h3 r hr)

/-- Round-tripping a reachable state through `exportConfig`/`importConfig`
preserves list membership in all three rule lists (ordering and duplication
may change). -/
theorem importExport_mem {st : FilterState} (h : ReachableFilterState st) :
    (∀ f : FileFilter,
      f ∈ (importConfig (exportConfig st)).includeFilters ↔ f ∈ st.includeFilters)
    ∧ (∀ f : FileFilter,
      f ∈ (importConfig (exportConfig st)).excludeFilters ↔ f ∈ st.excludeFilters)
    ∧ (∀ r : IgnoreRule,
      r ∈ (importConfig (exportConfig st)).ignoreRules ↔ r ∈ st.ignoreRules) := by
  obtain ⟨h1, h2, h3, h4, h5⟩ := reachable_invariants h
  refine ⟨?_, ?_, ?_⟩
  · intro f
    simp only [importConfig, exportConfig, addIgnoreRules, addFilters,
      resetFilterState, initialFilterState, mem_sortByDesc, List.mem_append,
      List.mem_filter]
    constructor
    · rintro (hdef | ⟨hmem | hmem, hact⟩)
      · exact h1 f hdef
      · exact hmem
      · exact absurd (beq_iff_eq.mp hact) (h5 f hmem)
    · intro hmem
      exact Or.inr ⟨Or.inl hmem, beq_iff_eq.mpr (h4 f hmem)⟩
  · intro f
    simp only [importConfig, exportConfig, addIgnoreRules, addFilters,
      resetFilterState, initialFilterState, mem_sortByDesc, List.mem_append,
      List.mem_filter]
    constructor
    · rintro (hdef | ⟨hmem | hmem, hact⟩)
      · exact h2 f hdef
      · exact absurd (h4 f hmem) (by simpa using hact)
      · exact hmem
    · intro hmem
      refine Or.inr ⟨Or.inr hmem, ?_⟩
      simpa using h5 f hmem
  · intro r
    simp only [importConfig, exportConfig, addIgnoreRules, addFilters,
      resetFilterState, initialFilterState, mem_sortByDesc, List.mem_append]
    constructor
    · rintro (hdef | hmem)
      · exact h3 r hdef
      · exact hmem
    · exact fun hmem => Or.inr hmem

/-- C10: for every `FileFilterSystem` state reachable by adding filters and
ignore rules, importing the exported configuration yields a system whose
`shouldInclude` decision equals the original's for every matcher, stat
outcome and root-relative path (the rule lists themselves may differ in
order and duplication, but each decision is a first-match/any query over the
lists, hence determined by membership alone). -/
theorem importConfig_exportConfig_preserves_shouldInclude
    {st : FilterState} (h : ReachableFilterState st) (m : Matcher)
    (statOk : Bool) (relativePath : String) :
    shouldInclude m (importConfig (exportConfig st)) statOk relativePath
      = shouldInclude m st statOk relativePath := by
  obtain ⟨hinc, hexc, hign⟩ := importExport_mem h
  have hig := any_congr_of_mem_iff
    (fun rule => m relativePath rule.pattern) hign
  have hex := any_congr_of_mem_iff
    (fun filter => m relativePath filter.pattern) hexc
  have hin := any_congr_of_mem_iff
    (fun filter => m relativePath filter.pattern) hinc
  simp only [shouldInclude, shouldIgnore, applyFilters, hig, hex, hin]

/-- Witness for C10: a state reached by one `addFilters` and one
`addIgnoreRules` step round-trips to the same decision on a concrete path. -/
theorem importConfig_exportConfig_preserves_shouldInclude_witness :
    shouldInclude (fun p pat => p == pat)
      (importConfig (exportConfig (addIgnoreRules
        [{ pattern := "secret.txt", description := "extra", priority := 4 }]
        (addFilters
          [{ name := "extra", pattern := "extra.md", action := "include",
             priority := 3 }] initialFilterState))))
      true "secret.txt"
      = shouldInclude (fun p pat => p == pat)
        (addIgnoreRules
          [{ pattern := "secret.txt", description := "extra", priority := 4 }]
          (addFilters
            [{ name := "extra", pattern := "extra.md", action := "include",
               priority := 3 }] initialFilterState))
        true "secret.txt" :=
  importConfig_exportConfig_preserves_shouldInclude
    (ReachableFilterState.addI _ (ReachableFilterState.addF _
      ReachableFilterState.init)) (fun p pat => p == pat) true "secret.txt"

/-! ## Theorems: detector confidence and tie-break (C4, C5) -/

/-- A directory containing only `go.mod` — the Go detector matches it. -/
def goModOnlyDir : FsEntry := FsEntry.dir "project" [FsEntry.file "go.mod"]

/-- C4: evaluated at a directory where the Go detector matches and only
`go.mod` of its eight declared patterns exists on disk, the source's
`calculateConfidence` yields 100 — it counts all eight declared patterns
(the async disk probe `checkPatternMatch` is used as a synchronous filter
predicate, and a `Promise` is truthy) and adds the `+25` bonus because the
*declared pattern list* contains `go.mod` — whereas the claimed formula
(50 + 10 per on-disk pattern + on-disk ecosystem bonus, capped) gives
50 + 10·1 + 25 = 85. The claim's per-pattern and bonus disk conditions are
both contradicted by the code, whose own comments and the existence of
`checkPatternMatch` show the disk check was the intent. -/
theorem calculateConfidence_ignores_disk :
    goDetector.detect goModOnlyDir = true
    ∧ calculateConfidence goModOnlyDir ProjectType.go goDetector = 100
    ∧ claimedConfidence goModOnlyDir ProjectType.go goDetector = 85
    ∧ calculateConfidence goModOnlyDir ProjectType.go goDetector
        ≠ claimedConfidence goModOnlyDir ProjectType.go goDetector := by
  decide

/-- Inserting above everything of smaller-or-equal key keeps the element in
front — the head of a stable descending sort whose input head is maximal. -/
theorem insertByDesc_eq_cons (key : α → Nat) (x : α) (l : List α)
    (h : ∀ y ∈ l, key y ≤ key x) : insertByDesc key x l = x :: l := by
  cases l with
  | nil => rfl
  | cons y ys => simp [insertByDesc, h y (List.mem_cons_self y ys)]

/-- When the first detection result's confidence is maximal, the stable sort
keeps it first and `detectProjectType` returns its type. -/
theorem detectProjectType_head_max (registry : List (ProjectType × ModuleDetector))
    (path : FsEntry) (r₁ : DetectionResult) (rest : List DetectionResult)
    (hres : detectionResults registry path = r₁ :: rest)
    (hmax : ∀ r ∈ rest, r.confidence ≤ r₁.confidence) :
    detectProjectType registry path = r₁.type := by
  unfold detectProjectType
  rw [hres]
  have hmax' : ∀ y ∈ sortByDesc (fun r => r.confidence) rest,
      y.confidence ≤ r₁.confidence := fun y hy =>
    hmax y ((mem_sortByDesc _ _ _).mp hy)
  show (match insertByDesc (fun r => r.confidence) r₁
      (sortByDesc (fun r => r.confidence) rest) with
    | [] => ProjectType.unknown
    | r :: _ => r.type) = r₁.type
  rw [insertByDesc_eq_cons _ _ _ hmax']

/-- C5: `detectProjectType` is a pure function of the directory snapshot, so
two calls over an unmodified filesystem return the same type; and when the
registry iteration produces exactly two matching detectors with equal
computed confidence, the result is the type of the first-registered one
(`detectionResults` preserves registration order and the ECMAScript sort is
stable). -/
theorem detectProjectType_deterministic_tiebreak :
    (∀ (registry : List (ProjectType × ModuleDetector)) (path : FsEntry),
      detectProjectType registry path = detectProjectType registry path)
    ∧ (∀ (registry : List (ProjectType × ModuleDetector)) (path : FsEntry)
        (r₁ r₂ : DetectionResult),
        detectionResults registry path = [r₁, r₂] →
        r₁.confidence = r₂.confidence →
        detectProjectType registry path = r₁.type) := by
  refine ⟨fun _ _ => rfl, ?_⟩
  intro registry path r₁ r₂ hres heq
  refine detectProjectType_head_max registry path r₁ [r₂] hres ?_
  intro r hr
  simp only [List.mem_singleton] at hr
  subst hr
  exact le_of_eq heq.symm

/-- A two-detector registry (JS first, Python second). -/
def tieRegistry : List (ProjectType × ModuleDetector) :=
  [(ProjectType.javascript, jsDetector), (ProjectType.python, pyDetector)]

/-- A directory both the JS and the Python detector match, with equal
computed confidence 100. -/
def jsPyDir : FsEntry :=
  FsEntry.dir "project" [FsEntry.file "package.json", FsEntry.file "pyproject.toml"]

/-- Witness for C5: both detectors match `jsPyDir` at confidence 100 and the
first-registered JavaScript detector wins the tie. -/
theorem detectProjectType_deterministic_tiebreak_witness :
    detectionResults tieRegistry jsPyDir
      = [{ type := ProjectType.javascript, confidence := 100 },
         { type := ProjectType.python, confidence := 100 }]
    ∧ detectProjectType tieRegistry jsPyDir = ProjectType.javascript :=
  ⟨by decide,
   detectProjectType_deterministic_tiebreak.2 tieRegistry jsPyDir
     { type := ProjectType.javascript, confidence := 100 }
     { type := ProjectType.python, confidence := 100 } (by decide) rfl⟩

/-! ## Theorems: module discovery pruning (C6) -/

/-- Every path recorded by the entry loop starts with the name of a
non-hidden directory entry of the processed list. -/
theorem scanEntriesIntended_shape (isRoot : FsEntry → Bool) (maxDepth : Nat)
    (es : List FsEntry) (depth : Nat) :
    ∀ p ∈ scanEntriesIntended isRoot maxDepth es depth,
      ∃ e ∈ es, e.isDirectory = true ∧ strStartsWith e.name "." = false
        ∧ ∃ p', p = e.name :: p' := by
  induction es, depth using scanEntriesIntended.induct isRoot maxDepth with
  | case1 depth =>
      intro p hp
      simp [scanEntriesIntended] at hp
  | case2 name rest depth ih =>
      intro p hp
      rw [scanEntriesIntended] at hp
      obtain ⟨e, he, h⟩ := ih p hp
      exact ⟨e, List.mem_cons_of_mem _ he, h⟩
  | case3 n sub rest depth ihsub ihrest =>
      intro p hp
      rw [scanEntriesIntended] at hp
      rcases List.mem_append.mp hp with hp | hp
      · by_cases hhid : strStartsWith n "."
        · simp [hhid] at hp
        · by_cases hroot : isRoot (.dir n sub)
          · simp only [if_neg hhid, if_pos hroot, List.mem_singleton] at hp
            exact ⟨.dir n sub, List.mem_cons_self _ _, rfl,
              by simpa using hhid, [], by simp [hp, FsEntry.name]⟩
          · by_cases hdep : depth + 1 > maxDepth
            · simp [hhid, hroot, hdep] at hp
            · simp only [if_neg hhid, if_neg hroot, if_neg hdep,
                List.mem_map] at hp
              obtain ⟨q, _, rfl⟩ := hp
              exact ⟨.dir n sub, List.mem_cons_self _ _, rfl,
                by simpa using hhid, q, rfl⟩
      · obtain ⟨e, he, h⟩ := ihrest p hp
        exact ⟨e, List.mem_cons_of_mem _ he, h⟩

/-- No component of a recorded module path is hidden: hidden directories are
neither recorded nor descended into. -/
theorem scanEntriesIntended_no_hidden (isRoot : FsEntry → Bool) (maxDepth : Nat)
    (es : List FsEntry) (depth : Nat) :
    ∀ p ∈ scanEntriesIntended isRoot maxDepth es depth,
      ∀ c ∈ p, strStartsWith c "." = false := by
  induction es, depth using scanEntriesIntended.induct isRoot maxDepth with
  | case1 depth =>
      intro p hp
      simp [scanEntriesIntended] at hp
  | case2 name rest depth ih =>
      intro p hp
      rw [scanEntriesIntended] at hp
      exact ih p hp
  | case3 n sub rest depth ihsub ihrest =>
      intro p hp
      rw [scanEntriesIntended] at hp
      rcases List.mem_append.mp hp with hp | hp
      · by_cases hhid : strStartsWith n "."
        · simp [hhid] at hp
        · by_cases hroot : isRoot (.dir n sub)
          · simp only [if_neg hhid, if_pos hroot, List.mem_singleton] at hp
            subst hp
            intro c hc
            simp only [List.mem_singleton] at hc
            subst hc
            simpa using hhid
          · by_cases hdep : depth + 1 > maxDepth
            · simp [hhid, hroot, hdep] at hp
            · simp only [if_neg hhid, if_neg hroot, if_neg hdep,
                List.mem_map] at hp
              obtain ⟨q, hq, rfl⟩ := hp
              intro c hc
              rcases List.mem_cons.mp hc with hc | hc
              · subst hc
                simpa using hhid
              · exact ihsub q hq c hc
      · exact ihrest p hp

/-- Recursion never proceeds past `maxDepth`: a path recorded from an entry
loop running at `depth ≤ maxDepth` has at most `maxDepth + 1 - depth`
components. -/
theorem scanEntriesIntended_depth_bound (isRoot : FsEntry → Bool) (maxDepth : Nat)
    (es : List FsEntry) (depth : Nat) :
    depth ≤ maxDepth →
    ∀ p ∈ scanEntriesIntended isRoot maxDepth es depth,
      depth + p.length ≤ maxDepth + 1 := by
  induction es, depth using scanEntriesIntended.induct isRoot maxDepth with
  | case1 depth =>
      intro _ p hp
      simp [scanEntriesIntended] at hp
  | case2 name rest depth ih =>
      intro hd p hp
      rw [scanEntriesIntended] at hp
      exact ih hd p hp
  | case3 n sub rest depth ihsub ihrest =>
      intro hd p hp
      rw [scanEntriesIntended] at hp
      rcases List.mem_append.mp hp with hp | hp
      · by_cases hhid : strStartsWith n "."
        · simp [hhid] at hp
        · by_cases hroot : isRoot (.dir n sub)
          · simp only [if_neg hhid, if_pos hroot, List.mem_singleton] at hp
            subst hp
            simpa using Nat.add_le_add_right hd 1
          · by_cases hdep : depth + 1 > maxDepth
            · simp [hhid, hroot, hdep] at hp
            · simp only [if_neg hhid, if_neg hroot, if_neg hdep,
                List.mem_map] at hp
              obtain ⟨q, hq, rfl⟩ := hp
              have := ihsub (Nat.le_of_not_lt hdep) q hq
              simpa [Nat.add_comm, Nat.add_left_comm] using this
      · exact ihrest hd p hp

/-- In a well-formed tree, the recorded module paths are mutually
prefix-free: once a directory is recorded as a module root, recursion into
it stops, so no recorded path extends another. -/
theorem scanEntriesIntended_prefix_free (isRoot : FsEntry → Bool) (maxDepth : Nat)
    (es : List FsEntry) (depth : Nat) :
    distinctNames (es.map FsEntry.name) = true → wfListB es = true →
    ∀ p ∈ scanEntriesIntended isRoot maxDepth es depth,
      ∀ q ∈ scanEntriesIntended isRoot maxDepth es depth,
        p ≠ q → ¬ p <+: q := by
  induction es, depth using scanEntriesIntended.induct isRoot maxDepth with
  | case1 depth =>
      intro _ _ p hp
      simp [scanEntriesIntended] at hp
  | case2 name rest depth ih =>
      intro hdn hwf p hp q hq
      rw [scanEntriesIntended] at hp hq
      simp only [List.map_cons, distinctNames, Bool.and_eq_true] at hdn
      simp only [wfListB, Bool.and_eq_true] at hwf
      exact ih hdn.2 hwf.2 p hp q hq
  | case3 n sub rest depth ihsub ihrest =>
      intro hdn hwf p hp q hq hne hpre
      rw [scanEntriesIntended] at hp hq
      simp only [List.map_cons, distinctNames, Bool.and_eq_true,
        Bool.not_eq_true'] at hdn
      obtain ⟨hnotin, hdnrest⟩ := hdn
      simp only [wfListB, FsEntry.wfB, Bool.and_eq_true] at hwf
      obtain ⟨⟨hdnsub, hwfsub⟩, hwfrest⟩ := hwf
      have hblock : ∀ r ∈ (if strStartsWith n "." then []
          else if isRoot (.dir n sub) then [[n]]
          else if depth + 1 > maxDepth then []
          else (scanEntriesIntended isRoot maxDepth sub (depth + 1)).map
            fun p => n :: p),
          ∃ r', r = n :: r' := by
        intro r hr
        by_cases hhid : strStartsWith n "."
        · simp [hhid] at hr
        · by_cases hroot : isRoot (.dir n sub)
          · simp only [if_neg hhid, if_pos hroot, List.mem_singleton] at hr
            exact ⟨[], hr⟩
          · by_cases hdep : depth + 1 > maxDepth
            · simp [hhid, hroot, hdep] at hr
            · simp only [if_neg hhid, if_neg hroot, if_neg hdep,
                List.mem_map] at hr
              obtain ⟨q', _, rfl⟩ := hr
              exact ⟨q', rfl⟩
      rcases List.mem_append.mp hp with hp | hp <;>
        rcases List.mem_append.mp hq with hq | hq
      · -- both inside the block for entry `n`
        by_cases hhid : strStartsWith n "."
        · simp [hhid] at hp
        · by_cases hroot : isRoot (.dir n sub)
          · simp only [if_neg hhid, if_pos hroot, List.mem_singleton] at hp hq
            exact hne (hp.trans hq.symm)
          · by_cases hdep : depth + 1 > maxDepth
            · simp [hhid, hroot, hdep] at hp
            · simp only [if_neg hhid, if_neg hroot, if_neg hdep,
                List.mem_map] at hp hq
              obtain ⟨p', hp', rfl⟩ := hp
              obtain ⟨q', hq', rfl⟩ := hq
              have hne' : p' ≠ q' := fun hc => hne (by rw [hc])
              have hpre' : p' <+: q' :=
                (List.cons_prefix_cons.mp hpre).2
              exact ihsub hdnsub hwfsub p' hp' q' hq' hne' hpre'
      · -- p in the block, q from a later sibling: heads differ
        obtain ⟨p', rfl⟩ := hblock p hp
        obtain ⟨e, he, _, _, q', rfl⟩ :=
          scanEntriesIntended_shape isRoot maxDepth rest depth q hq
        have hhead : n = e.name := (List.cons_prefix_cons.mp hpre).1
        have : e.name ∈ rest.map FsEntry.name := List.mem_map_of_mem _ he
        rw [← hhead] at this
        exact absurd this (by simpa using hnotin)
      · -- q in the block, p from a later sibling: heads differ
        obtain ⟨q', rfl⟩ := hblock q hq
        obtain ⟨e, he, _, _, p', rfl⟩ :=
          scanEntriesIntended_shape isRoot maxDepth rest depth p hp
        have hhead : e.name = n := (List.cons_prefix_cons.mp hpre).1
        have : e.name ∈ rest.map FsEntry.name := List.mem_map_of_mem _ he
        rw [hhead] at this
        exact absurd this (by simpa using hnotin)
      · exact ihrest hdnrest hwfrest p hp q hq hne hpre

/-- The *intended* walk does satisfy the claimed invariants: over any
well-formed tree snapshot (distinct sibling names, as a real filesystem
guarantees), `findModulesIntended` prunes at module roots — no recorded
module path is a strict prefix of another, so no descendant of a recorded
root is recorded in the same pass; hidden directories (names starting with
`'.'`) contribute no component to any recorded path, being neither recorded
nor descended into; and no recorded path is longer than `maxDepth + 1`, the
deepest level the `depth > maxDepth` guard admits. This supports the
claim-is-right half of C6; the shipped `findModules` never executes this
walk (see `findModules_never_records`, the claim's theorem). -/
theorem findModulesIntended_pruning (tree : FsEntry) (maxDepth : Nat)
    (hwf : tree.wfB = true) :
    (∀ p ∈ findModulesIntended maxDepth tree, ∀ q ∈ findModulesIntended maxDepth tree,
      p ≠ q → ¬ p <+: q)
    ∧ (∀ p ∈ findModulesIntended maxDepth tree, ∀ c ∈ p, strStartsWith c "." = false)
    ∧ (∀ p ∈ findModulesIntended maxDepth tree, p.length ≤ maxDepth + 1) := by
  have hfm : findModulesIntended maxDepth tree
      = scanEntriesIntended isModuleRoot maxDepth tree.entries 0 := by
    simp [findModulesIntended, scanDirectoryIntended]
  have hwf' : distinctNames (tree.entries.map FsEntry.name) = true
      ∧ wfListB tree.entries = true := by
    cases tree with
    | file n => exact ⟨rfl, rfl⟩
    | dir n es =>
        simp only [FsEntry.wfB, Bool.and_eq_true] at hwf
        exact ⟨hwf.1, hwf.2⟩
  refine ⟨?_, ?_, ?_⟩
  · rw [hfm]
    exact scanEntriesIntended_prefix_free isModuleRoot maxDepth tree.entries 0
      hwf'.1 hwf'.2
  · rw [hfm]
    exact scanEntriesIntended_no_hidden isModuleRoot maxDepth tree.entries 0
  · rw [hfm]
    intro p hp
    have := scanEntriesIntended_depth_bound isModuleRoot maxDepth tree.entries 0
      (Nat.zero_le _) p hp
    simpa using this

/-- A concrete well-formed tree: `a` is a JS module root containing a nested
Go module `a/b` (pruned), `.hidden` contains a Go module (skipped), and
`d/e` is a Go module below a plain directory. -/
def pruneTree : FsEntry :=
  FsEntry.dir "root"
    [FsEntry.dir "a" [FsEntry.file "package.json",
       FsEntry.dir "b" [FsEntry.file "go.mod"]],
     FsEntry.dir ".hidden" [FsEntry.dir "c" [FsEntry.file "go.mod"]],
     FsEntry.dir "d" [FsEntry.dir "e" [FsEntry.file "main.go"]]]

/-- The unbound-`this` entry loop records nothing on any entry list. -/
theorem findModulesEntries_eq_nil (es : List FsEntry) :
    findModulesEntries es = [] := by
  induction es with
  | nil => rfl
  | cons e rest ih =>
      cases e with
      | file n => simpa [findModulesEntries] using ih
      | dir n sub =>
          by_cases hhid : strStartsWith n "."
          · simpa [findModulesEntries, hhid] using ih
          · simp [findModulesEntries, hhid]

/-- C6: the shipped `findModules` records nothing at all, for every tree
and every depth: its inner `scanDirectory` is started by the plain call
`scanDirectory(rootPath, 0)` (no `.call(this)`, unlike
`quickTraverseDirectory`), so `this` is `undefined` and
`await this.isModuleRoot(fullPath)` throws a swallowed `TypeError` at the
first non-hidden directory entry — no module root is ever recorded, no
recursion ever happens, and `maxDepth` is never consulted. The claim's
record-and-prune behavior is the stated intent of spec §4.2 and of the
source's own comments, but the code never exhibits it: at the concrete tree
`pruneTree` the intended walk records `a` and `d/e` with `a/b` pruned and
`.hidden` skipped, while the source returns `[]`. -/
theorem findModules_never_records :
    (∀ (maxDepth : Nat) (tree : FsEntry), findModules maxDepth tree = [])
    ∧ findModules 3 pruneTree = []
    ∧ findModulesIntended 3 pruneTree = [["a"], ["d", "e"]] :=
  ⟨fun _ tree => findModulesEntries_eq_nil tree.entries,
   findModulesEntries_eq_nil pruneTree.entries,
   by simp [findModulesIntended, scanDirectoryIntended, scanEntriesIntended,
     isModuleRoot, detectProjectType, detectionResults, defaultRegistry,
     jsDetector, pyDetector, goDetector, calculateConfidence, ecosystemBonus,
     sortByDesc, insertByDesc, pruneTree, FsEntry.hasEntry, FsEntry.lookup,
     fsAccess, splitPath, splitComponents, strStartsWith, strEndsWith,
     FsEntry.entries, FsEntry.name, FsEntry.isDirectory, List.isPrefixOf,
     List.isSuffixOf]⟩

/-! ## Theorems: orchestrator failure semantics (C7, C8, C9) -/

/-- A phase implementation that always throws, standing for any failing
phase body. -/
def failingQuickImpl : PhaseImpl := fun _ _ =>
  Except.error { message := "quick phase boom", code := "QUICK_SCAN_FAILED" }

/-- C7 counterexample: with a quick phase whose implementation throws,
`scan` propagates the error and returns no result at all — the `catch` in
the phase loop calls `handleError`, which rethrows, making the `break`
unreachable, so `finalizeScan` (duration summing, coverage recomputation,
recommendation regeneration) never runs, contrary to the claim that the
finalize step runs regardless of how many phases ran. -/
theorem scan_no_finalize_on_failure_counterexample :
    scan failingQuickImpl (fun _ => 1) [ScanPhase.quick] initializeScanResult
      = Except.error { message := "quick phase boom", code := "QUICK_SCAN_FAILED" } :=
  rfl

/-- C7 amended: the orchestrator is fail-fast — a throwing phase's record
transitions to `failed` with the error message and no later phase in the
requested sequence is dispatched — but the finalize step (summing the pushed
phase records' durations into the aggregate duration, recomputing coverage
from the final counts when `totalFiles > 0`, and regenerating the
recommendations from final state, overwriting any set by individual phases)
runs only when every requested phase completes; on a phase failure `scan`
rethrows the error and the finalize step is skipped. -/
theorem scan_fail_fast_finalize_on_success (impls : PhaseImpl)
    (dur : ScanPhase → Nat) (result : ProjectScanResultM) :
    (∀ (phase : ScanPhase) (rest : List ScanPhase) (e : ScanErrM),
      impls phase result = Except.error e →
        (scanPhase impls (dur phase) phase result).1.status = "failed"
        ∧ (scanPhase impls (dur phase) phase result).1.error = some e.message
        ∧ scanLoop impls dur (phase :: rest) result = Except.error e)
    ∧ (∀ (phases : List ScanPhase) (r' : ProjectScanResultM),
        scanLoop impls dur phases result = Except.ok r' →
          scan impls dur phases result = Except.ok (finalizeScan r'))
    ∧ (∀ r : ProjectScanResultM,
        (finalizeScan r).scanStatistics.scanDuration
            = ((r.scanPhases.map fun rec => rec.duration).sum)
        ∧ (0 < r.scanStatistics.totalFiles →
            (finalizeScan r).scanStatistics.coverage
              = ((r.scanStatistics.scannedFiles : ℚ)
                  / (r.scanStatistics.totalFiles : ℚ)) * 100)
        ∧ (finalizeScan r).recommendations
            = generateRecommendations
                { r with scanStatistics := (finalizeScan r).scanStatistics }) := by
  refine ⟨?_, ?_, ?_⟩
  · intro phase rest e he
    refine ⟨?_, ?_, ?_⟩ <;> simp [scanPhase, scanLoop, he]
  · intro phases r' h
    simp [scan, h]
  · intro r
    by_cases hpos : 0 < r.scanStatistics.totalFiles
    · refine ⟨?_, ?_, ?_⟩ <;> simp [finalizeScan, hpos]
    · refine ⟨?_, ?_, ?_⟩ <;> simp [finalizeScan, hpos]

/-- Witness for the amended C7: a throwing quick phase fails its record and
stops the pipeline; with no phases requested, the loop succeeds and `scan`
finalizes. -/
theorem scan_fail_fast_finalize_on_success_witness :
    (scanPhase failingQuickImpl 1 ScanPhase.quick initializeScanResult).1.status
        = "failed"
    ∧ scanLoop failingQuickImpl (fun _ => 1)
        [ScanPhase.quick, ScanPhase.module, ScanPhase.deep] initializeScanResult
        = Except.error { message := "quick phase boom", code := "QUICK_SCAN_FAILED" }
    ∧ scan failingQuickImpl (fun _ => 1) [] initializeScanResult
        = Except.ok (finalizeScan initializeScanResult) :=
  ⟨((scan_fail_fast_finalize_on_success failingQuickImpl (fun _ => 1)
      initializeScanResult).1 ScanPhase.quick [ScanPhase.module, ScanPhase.deep]
      { message := "quick phase boom", code := "QUICK_SCAN_FAILED" } rfl).1,
   ((scan_fail_fast_finalize_on_success failingQuickImpl (fun _ => 1)
      initializeScanResult).1 ScanPhase.quick [ScanPhase.module, ScanPhase.deep]
      { message := "quick phase boom", code := "QUICK_SCAN_FAILED" } rfl).2.2,
   (scan_fail_fast_finalize_on_success failingQuickImpl (fun _ => 1)
      initializeScanResult).2.1 [] initializeScanResult rfl⟩

/-- A flat repository with 11 files and no subdirectories. -/
def flatTree11 : FsEntry :=
  FsEntry.dir "repo"
    [FsEntry.file "f01.txt", FsEntry.file "f02.txt", FsEntry.file "f03.txt",
     FsEntry.file "f04.txt", FsEntry.file "f05.txt", FsEntry.file "f06.txt",
     FsEntry.file "f07.txt", FsEntry.file "f08.txt", FsEntry.file "f09.txt",
     FsEntry.file "f10.txt", FsEntry.file "f11.txt"]

/-- The default limits with the max-file limit set to 10. -/
def limitsMax10 : PerformanceLimits :=
  { defaultPerformanceLimits with maxFiles := 10 }

/-- C8, evaluated at the claim's own scenario (max-files 10, a tree of 11
files): the quick phase *completes* — `shouldStopScan` compares the limits
against `scanResult.scanStatistics`, which stays all-zero throughout
enumeration because `updateStatistics` runs only after it, so the limit
check never fires during the phase — all 11 files are enumerated, the
record's status is `completed`, and the next phase is dispatched (failing
with `UNSUPPORTED_PHASE`, not a resource-limit error). The third conjunct
shows `shouldStopScan` as specified would flag these final counts had it
been fed them. -/
theorem resource_limit_not_enforced_during_enumeration :
    (scanPhase (quickImpls limitsMax10 (fun _ _ => false) none flatTree11) 0
        ScanPhase.quick initializeScanResult).1.status = "completed"
    ∧ ((performQuickScanM limitsMax10 (fun _ _ => false) none flatTree11
        initializeScanResult).map fun r => r.scanStatistics.totalFiles)
      = Except.ok 11
    ∧ shouldStopScan limitsMax10 { initialScanStatistics with totalFiles := 11 }
      = Except.error { message := "Maximum file limit reached: 10",
                       code := "FILE_LIMIT_EXCEEDED" }
    ∧ scanLoop (quickImpls limitsMax10 (fun _ _ => false) none flatTree11)
        (fun _ => 0) [ScanPhase.quick, ScanPhase.module] initializeScanResult
      = Except.error { message := "QuickScanner 不支持模块扫描阶段",
                       code := "UNSUPPORTED_PHASE" } :=
  ⟨rfl, rfl, rfl, rfl⟩

/-- A repository with no manifest files and no language source files. -/
def emptyRepo : FsEntry := FsEntry.dir "repo" []

/-- C9 counterexample: scanning `emptyRepo` (quick phase only, so that a
result is returned at all) yields a result whose recommendations are only
the orchestrator-level medium scan-deeper entry — `finalizeScan`'s
recommendation pass overwrote the quick recommendations, so the returned
scan result contains neither the claimed high-priority scan-deeper entry nor
the claimed medium-priority add-config entry (the claimed project type and
module count do hold). -/
theorem returned_recommendations_overwritten_counterexample :
    ((scan (quickImpls defaultPerformanceLimits (fun _ _ => false) none emptyRepo)
        (fun _ => 0) [ScanPhase.quick] initializeScanResult).map
      fun r => (r.projectType, r.scanStatistics.modulesFound, r.recommendations))
      = Except.ok (ProjectType.unknown, 0,
          [{ type := RecType.scan_deeper, priority := RecPriority.medium,
             title := "建议进行深度扫描" }])
    ∧ ((scan (quickImpls defaultPerformanceLimits (fun _ _ => false) none emptyRepo)
        (fun _ => 0) [ScanPhase.quick] initializeScanResult).map
      fun r => r.recommendations.any fun rec =>
        rec.type == RecType.add_config)
      = Except.ok false
    ∧ ((scan (quickImpls defaultPerformanceLimits (fun _ _ => false) none emptyRepo)
        (fun _ => 0) [ScanPhase.quick] initializeScanResult).map
      fun r => r.recommendations.any fun rec =>
        rec.type == RecType.scan_deeper && rec.priority == RecPriority.high)
      = Except.ok false :=
  ⟨rfl, rfl, rfl⟩

/-- The high-priority "scan deeper" recommendation for zero modules. -/
def highNoModulesRec : Recommendation :=
  { type := RecType.scan_deeper, priority := RecPriority.high,
    title := "未找到模块，建议进行深度扫描" }

/-- The medium-priority "scan deeper" recommendation for low coverage. -/
def lowCoverageRec : Recommendation :=
  { type := RecType.scan_deeper, priority := RecPriority.medium,
    title := "扫描覆盖率较低" }

/-- The medium-priority "add config" recommendation for Unknown type. -/
def addConfigRec : Recommendation :=
  { type := RecType.add_config, priority := RecPriority.medium,
    title := "未识别的项目类型" }

/-- The low-priority "scan deeper" recommendation when modules were found. -/
def moduleAnalysisRec : Recommendation :=
  { type := RecType.scan_deeper, priority := RecPriority.low,
    title := "建议进行模块深度分析" }

/-- C9 amended: for the manifest-free, source-free tree the quick phase
itself computes projectType Unknown, `modulesFound = 0`, and recommendations
containing both the high-priority scan-deeper and the medium-priority
add-config entries; the four quick checks are independent — each entry is
present iff its own condition holds, whatever the other three conditions do
— but the finalize pass later overwrites these in the returned scan result
(see the counterexample). -/
theorem quick_recommendations_complete_and_independent :
    (∀ (stats : ScanStatistics) (projectType : ProjectType),
      (highNoModulesRec ∈ generateQuickRecommendations stats projectType
        ↔ stats.modulesFound = 0)
      ∧ (lowCoverageRec ∈ generateQuickRecommendations stats projectType
        ↔ stats.coverage < 30)
      ∧ (addConfigRec ∈ generateQuickRecommendations stats projectType
        ↔ projectType = ProjectType.unknown)
      ∧ (moduleAnalysisRec ∈ generateQuickRecommendations stats projectType
        ↔ 0 < stats.modulesFound))
    ∧ ((performQuickScanM defaultPerformanceLimits (fun _ _ => false) none
        emptyRepo initializeScanResult).map fun r =>
          (r.projectType, r.scanStatistics.modulesFound, r.recommendations))
      = Except.ok (ProjectType.unknown, 0,
          [highNoModulesRec, lowCoverageRec, addConfigRec]) := by
  constructor
  · intro stats projectType
    refine ⟨?_, ?_, ?_, ?_⟩ <;>
    · by_cases h1 : stats.modulesFound = 0 <;>
        by_cases h2 : stats.coverage < 30 <;>
          by_cases h3 : projectType = ProjectType.unknown <;>
            simp [generateQuickRecommendations, h1, h2, h3, highNoModulesRec,
              lowCoverageRec, addConfigRec, moduleAnalysisRec,
              Nat.pos_iff_ne_zero]
  · rfl
